import Mathlib

/-!
Verification model of the WebRTC frame cadence adapter.

The adapter implementation itself is not part of the source tree under
verification (only its unit tests, `video/frame_cadence_adapter_unittest.cc`,
are).  The definitions below are therefore modelled from the specification
(`spec.md`), with every observable behaviour pinned instead by the unit tests
wherever the two disagree.  In particular the tests `ForwardsFramesDelayed`,
`RepeatsFramesDelayed` and `StopsRepeatingFramesDelayed` pin that in zero-hertz
mode even the first delivery of an inbound frame is delayed by one repeat
period, and `FrameRateFollowsRateStatisticsByDefault` pins that
`UpdateFrameRate()` records an event in the rate window.

The model is a deterministic discrete-event simulation: the producer API calls
are commands, a simulated clock advances in microseconds, posted jobs run when
time is pumped, and the single in-flight repeat task fires at its due time and
re-arms itself.
-/

namespace FrameCadence

/-- Modelled from the spec: a video frame, reduced to the two timestamp fields
the adapter reads and rewrites (spec section 3): the capture timestamp in
microseconds and the NTP timestamp in milliseconds.  Zero is the "unset"
sentinel for both. -/
structure Frame where
  timestampUs : Int
  ntpTimeMs : Int
deriving DecidableEq

/-- One delivery observed by the consumer callback: the `post_time` (here in
microseconds), the `frames_scheduled_for_processing` count parameter, and the
delivered frame's timestamps. -/
structure Delivery where
  postTimeUs : Nat
  count : Nat
  timestampUs : Int
  ntpTimeMs : Int
deriving DecidableEq

/-- Modelled from the spec: the metric keys of the screenshare frame-rate
constraints telemetry (spec section 4.5, namespace
`WebRTC.Screenshare.FrameRateConstraints`). -/
inductive MetricKey
  | keyExists
  | minExists
  | minValue
  | maxExists
  | maxValue
  | minUnsetMax
  | minLtMaxMin
  | minLtMaxMax
  | sixtyMinPlusMaxMinusOne
deriving DecidableEq

/-- Modelled from the spec: the adapter state (spec section 3, `AdapterState`),
extended with the observation records of the simulation (deliveries made,
metric samples emitted, history flags used to state reachability facts).
Frame-rate constraint values are modelled as naturals (all constraint values
exercised by the tests and claims are integral). -/
structure AdapterState where
  /-- Simulated clock, microseconds. -/
  nowUs : Nat
  /-- Whether `Initialize(callback)` was called with a consumer. -/
  callbackSet : Bool
  /-- `mode = ZERO_HERTZ`. -/
  zeroHertz : Bool
  cMin : Option Nat
  cMax : Option Nat
  /-- Whether `OnConstraintsChanged` was ever called. -/
  constraintsEverSet : Bool
  /-- `first_frame_after_activation`: telemetry armed, fires on next frame job. -/
  pendingTelemetry : Bool
  latestFrame : Option Frame
  /-- The outstanding-frames counter. -/
  framesScheduled : Nat
  /-- Posted but not yet processed frame jobs (FIFO). -/
  queue : List Frame
  /-- The single in-flight repeat task: due time (microseconds) and repeat index. -/
  repeatDue : Option (Nat × Nat)
  /-- Rate-window events, millisecond timestamps, newest first. -/
  rateEvents : List Nat
  /-- Deliveries observed by the consumer, newest first. -/
  deliveries : List Delivery
  /-- Telemetry samples emitted, in emission order. -/
  metrics : List (MetricKey × Int)
  /-- History flag: some frame job was processed. -/
  everFrame : Bool
  /-- History flag: zero-hertz mode was (effectively) activated at some point. -/
  everActivated : Bool
deriving DecidableEq

/-- The freshly constructed adapter, bound to a clock reading `startUs`. -/
def initState (startUs : Nat) : AdapterState :=
  { nowUs := startUs
    callbackSet := false
    zeroHertz := false
    cMin := none
    cMax := none
    constraintsEverSet := false
    pendingTelemetry := false
    latestFrame := none
    framesScheduled := 0
    queue := []
    repeatDue := none
    rateEvents := []
    deliveries := []
    metrics := []
    everFrame := false
    everActivated := false }

/-- Offset between the simulated clock and NTP, milliseconds
(seconds between 1900-01-01 and 1970-01-01, times 1000). -/
def kNtpOffsetMs : Nat := 2208988800000

/-- `FrameCadenceAdapterInterface::kFrameRateAveragingWindowSizeMs`:
the averaging window of the rate statistics, `(1000 / 30) * 90` ms. -/
def kFrameRateAveragingWindowSizeMs : Nat := 1000 / 30 * 90

/-- Modelled from the spec: the sliding-window rate estimate (spec section 4.1):
the number of events in the window `(nowMs - W, nowMs]` scaled to per-second,
zero when the window is empty. -/
def windowRate (events : List Nat) (nowMs : Nat) : Nat :=
  (events.countP fun t =>
    decide (nowMs < t + kFrameRateAveragingWindowSizeMs) && decide (t ≤ nowMs))
    * 1000 / kFrameRateAveragingWindowSizeMs

/-- The zero-hertz repeat period in microseconds, `1_000_000 / max_fps`
(spec section 4.3); zero when no max constraint is known. -/
def periodState (s : AdapterState) : Nat :=
  match s.cMax with
  | some m => 1000000 / m
  | none => 0

/-- Modelled from the spec: the timestamp rewriter C3 (spec section 4.3).
Given the original timestamps, the repeat index `n` and the repeat period,
produce the repeated frame's timestamps: unchanged when both are the unset
sentinel zero, otherwise advanced by `n` periods. -/
def rewriteTimestamps (tsUs ntpMs : Int) (n : Nat) (periodUs : Nat) : Int × Int :=
  if tsUs = 0 ∧ ntpMs = 0 then (tsUs, ntpMs)
  else (tsUs + (n : Int) * (periodUs : Int), ntpMs + (n : Int) * ((periodUs / 1000 : Nat) : Int))

/-- Modelled from the spec: the constraints telemetry samples C5 (spec
section 4.5).  When `OnConstraintsChanged` was never called only `Exists`
(false) is emitted; otherwise the table of section 4.5, with booleans as 0/1. -/
def telemetrySamples (everSet : Bool) (mn mx : Option Nat) : List (MetricKey × Int) :=
  if everSet then
    [(MetricKey.keyExists, 1), (MetricKey.minExists, if mn.isSome then 1 else 0)]
    ++ (match mn with | some a => [(MetricKey.minValue, (a : Int))] | none => [])
    ++ [(MetricKey.maxExists, if mx.isSome then 1 else 0)]
    ++ (match mx with | some b => [(MetricKey.maxValue, (b : Int))] | none => [])
    ++ (match mn, mx with
        | none, some b => [(MetricKey.minUnsetMax, (b : Int))]
        | _, _ => [])
    ++ (match mn, mx with
        | some a, some b =>
          (if a < b then
            [(MetricKey.minLtMaxMin, (a : Int)), (MetricKey.minLtMaxMax, (b : Int))]
           else [])
          ++ [(MetricKey.sixtyMinPlusMaxMinusOne, ((60 * a + b - 1 : Nat) : Int))]
        | _, _ => [])
  else [(MetricKey.keyExists, 0)]

/-- One-shot telemetry emission: fires on a frame job when zero-hertz mode is
on and the pending flag is armed (spec sections 4.4 step 3 and 4.5). -/
def emitIfDue (s : AdapterState) : AdapterState :=
  if s.zeroHertz && s.pendingTelemetry then
    { s with metrics := s.metrics ++ telemetrySamples s.constraintsEverSet s.cMin s.cMax
             pendingTelemetry := false }
  else s

/-- The delivery part of a frame job.  In zero-hertz mode with a known max
constraint the frame is not forwarded at once: the cadence task is (re-)armed
to deliver it one period from now with repeat index 0 (pinned by the unit
tests `ForwardsFramesDelayed` and `RepeatsFramesDelayed`: no delivery happens
at the arrival instant, the first delivery carries the unmodified timestamps
one period later).  Otherwise the frame is forwarded at once, annotated with
the current outstanding count.  The counter is decremented once per job. -/
def pjDeliver (f : Frame) (s : AdapterState) : AdapterState :=
  if s.zeroHertz && s.cMax.isSome then
    { s with latestFrame := some f
             repeatDue := some (s.nowUs + periodState s, 0)
             framesScheduled := s.framesScheduled - 1 }
  else
    { s with latestFrame := some f
             deliveries := { postTimeUs := s.nowUs
                             count := s.framesScheduled
                             timestampUs := f.timestampUs
                             ntpTimeMs := f.ntpTimeMs } :: s.deliveries
             framesScheduled := s.framesScheduled - 1 }

/-- A frame job after the rate-window update: with no consumer callback the
job only drops the frame (spec section 7: rate window still updated, no
delivery); otherwise telemetry may fire once and the frame is delivered or
scheduled. -/
def pjCore (f : Frame) (s : AdapterState) : AdapterState :=
  if s.callbackSet = false then { s with framesScheduled := s.framesScheduled - 1 }
  else pjDeliver f (emitIfDue s)

/-- Processing of one posted frame job on the adapter queue (spec section 4.4,
`OnFrame` step 3): update the rate window with the current clock ms, then run
the core. -/
def processJob (f : Frame) (s : AdapterState) : AdapterState :=
  pjCore f { s with rateEvents := s.nowUs / 1000 :: s.rateEvents, everFrame := true }

/-- Run all posted frame jobs, FIFO. -/
def runQueue : List Frame → AdapterState → AdapterState
  | [], s => s
  | f :: rest, s => runQueue rest (processJob f s)

/-- The repeat task body firing at `due` with repeat index `n` (spec
section 4.4, repeat path): bail when the latest frame is gone, otherwise
deliver the rewritten frame and re-arm one period later with the next index. -/
def fireOne (due n : Nat) (s : AdapterState) : AdapterState :=
  match s.latestFrame with
  | none => { s with repeatDue := none }
  | some f =>
    { s with deliveries :=
               { postTimeUs := due
                 count := s.framesScheduled
                 timestampUs := (rewriteTimestamps f.timestampUs f.ntpTimeMs n (periodState s)).1
                 ntpTimeMs := (rewriteTimestamps f.timestampUs f.ntpTimeMs n (periodState s)).2 }
               :: s.deliveries
             repeatDue := some (due + periodState s, n + 1) }

/-- Fire the pending repeat task for as long as it is due before `target`,
then settle the clock at `target`.  The fuel bounds the recursion; it is
always chosen at least `target - now + 1`, which suffices because each firing
moves the due time forward by one (positive) period. -/
def fireRepeats : Nat → Nat → AdapterState → AdapterState
  | 0, target, s => { s with nowUs := target }
  | fuel + 1, target, s =>
    match s.repeatDue with
    | none => { s with nowUs := target }
    | some (due, n) =>
      if due ≤ target ∧ 0 < periodState s then
        fireRepeats fuel target (fireOne due n { s with nowUs := due })
      else { s with nowUs := target }

/-- Advance simulated time by `d` microseconds: first pump the posted jobs at
the current instant, then let the repeat task fire at its due times up to the
target instant. -/
def advanceUs (d : Nat) (s : AdapterState) : AdapterState :=
  fireRepeats (d + 1) ((runQueue s.queue { s with queue := [] }).nowUs + d)
    (runQueue s.queue { s with queue := [] })

/-- `GetInputFrameRateFps` (spec section 4.4): the max constraint in zero-hertz
mode when known, the rate-window estimate otherwise. -/
def getInputFrameRateFps (s : AdapterState) : Nat :=
  if s.zeroHertz && s.cMax.isSome then s.cMax.getD 0
  else windowRate s.rateEvents (s.nowUs / 1000)

/-- The injected capabilities: the zero-hertz feature flag. -/
structure Config where
  featureEnabled : Bool

/-- The producer-side API calls and the simulated-time control. -/
inductive Cmd
  /-- `Initialize(callback)` with a real consumer. -/
  | initCb
  /-- Producer `OnFrame` with the given frame timestamps. -/
  | onFrame (tsUs ntpMs : Int)
  /-- `SetZeroHertzModeEnabled`. -/
  | setZeroHertz (enabled : Bool)
  /-- `OnConstraintsChanged {min, max}`. -/
  | onConstraints (mn mx : Option Nat)
  /-- `UpdateFrameRate()`. -/
  | updateRate
  /-- Advance the simulated time controller by `d` microseconds. -/
  | advance (d : Nat)
deriving DecidableEq

/-- Modelled from the spec: one producer-side step (spec section 4.4).
`OnFrame` only bumps the counter and posts a job; `SetZeroHertzModeEnabled` is
gated on the feature flag, arms the telemetry on activation and cancels the
repeat task on deactivation; `OnConstraintsChanged` replaces the constraints
and re-arms a pending repeat with the new period; `UpdateFrameRate` records a
rate-window event at the current clock ms (pinned by the unit test
`FrameRateFollowsRateStatisticsByDefault`, which drives the rate purely
through `UpdateFrameRate`). -/
def step (cfg : Config) (s : AdapterState) : Cmd → AdapterState
  | Cmd.initCb => { s with callbackSet := true }
  | Cmd.onFrame tsUs ntpMs =>
    { s with framesScheduled := s.framesScheduled + 1
             queue := s.queue ++ [{ timestampUs := tsUs, ntpTimeMs := ntpMs }] }
  | Cmd.setZeroHertz enabled =>
    if cfg.featureEnabled = false then s
    else if enabled then
      let s1 := { s with zeroHertz := true, pendingTelemetry := true, everActivated := true }
      if s1.latestFrame.isSome && s1.cMax.isSome then
        { s1 with repeatDue := some (s1.nowUs + periodState s1, 1) }
      else s1
    else { s with zeroHertz := false, repeatDue := none }
  | Cmd.onConstraints mn mx =>
    let s1 := { s with cMin := mn, cMax := mx, constraintsEverSet := true }
    if s1.zeroHertz && s1.cMax.isSome && s1.repeatDue.isSome then
      { s1 with repeatDue := some (s1.nowUs + periodState s1,
                  (s1.repeatDue.map Prod.snd).getD 0) }
    else s1
  | Cmd.updateRate => { s with rateEvents := s.nowUs / 1000 :: s.rateEvents }
  | Cmd.advance d => advanceUs d s

/-- Run a command list from a state. -/
def run (cfg : Config) (s : AdapterState) (cmds : List Cmd) : AdapterState :=
  cmds.foldl (step cfg) s

/-- The configuration with the zero-hertz feature enabled (the unit tests'
`ZeroHertzFieldTrialEnabler`, also the default in the metrics tests). -/
def cfgOn : Config := { featureEnabled := true }

/-- The zero-hertz scenario prologue shared by the cadence tests: initialize a
consumer, enable zero-hertz mode, set constraints `{min 0, max M}` and send
one frame with the given timestamps. -/
def zhSetupCmds (M : Nat) (t0 n0 : Int) : List Cmd :=
  [Cmd.initCb, Cmd.setZeroHertz true, Cmd.onConstraints (some 0) (some M),
   Cmd.onFrame t0 n0]

/-- The zero-hertz scenario: run the prologue from clock `startUs`, pump the
queue at the arrival instant, then advance time by `k` repeat periods, one at
a time. -/
def zhRun (startUs M : Nat) (t0 n0 : Int) (k : Nat) : AdapterState :=
  (advanceUs (1000000 / M))^[k]
    (advanceUs 0 (run cfgOn (initState startUs) (zhSetupCmds M t0 n0)))

/-- The closed form of `zhRun`: after `k` periods the repeat task is armed for
period `k + 1` with index `k`, and the consumer has seen one delivery per
elapsed period, the `n`-th carrying the `n`-rewritten timestamps. -/
def zhExpected (startUs M : Nat) (t0 n0 : Int) (k : Nat) : AdapterState :=
  { nowUs := startUs + k * (1000000 / M)
    callbackSet := true
    zeroHertz := true
    cMin := some 0
    cMax := some M
    constraintsEverSet := true
    pendingTelemetry := false
    latestFrame := some { timestampUs := t0, ntpTimeMs := n0 }
    framesScheduled := 0
    queue := []
    repeatDue := some (startUs + (k + 1) * (1000000 / M), k)
    rateEvents := [startUs / 1000]
    deliveries :=
      ((List.range k).map fun n =>
        { postTimeUs := startUs + (n + 1) * (1000000 / M)
          count := 0
          timestampUs := (rewriteTimestamps t0 n0 n (1000000 / M)).1
          ntpTimeMs := (rewriteTimestamps t0 n0 n (1000000 / M)).2 }).reverse
    metrics := telemetrySamples true (some 0) (some M)
    everFrame := true
    everActivated := true }

/-- Command lists that never enable zero-hertz mode: the adapter stays in
passthrough for their whole run. -/
def noZeroHertz (cmds : List Cmd) : Bool :=
  cmds.all fun c => match c with
    | Cmd.setZeroHertz true => false
    | _ => true

/-- A passthrough batch: initialize a consumer, post `m` frames back-to-back,
then pump the queue once. -/
def batchCmds (m : Nat) : List Cmd :=
  Cmd.initCb :: (List.replicate m (Cmd.onFrame 5 6) ++ [Cmd.advance 0])

/-- The telemetry-gate invariant: metric samples exist only when a consumer
was initialized, a frame job ran, and zero-hertz mode was activated; zero-hertz
mode implies it was activated at some point; and while `OnConstraintsChanged`
was never called, only `Exists` samples of value 0 are ever emitted. -/
def c8Inv (s : AdapterState) : Prop :=
  (s.metrics ≠ [] → s.callbackSet = true ∧ s.everFrame = true ∧ s.everActivated = true)
  ∧ (s.zeroHertz = true → s.everActivated = true)
  ∧ (s.constraintsEverSet = false → ∀ m ∈ s.metrics, m = (MetricKey.keyExists, (0 : Int)))

/-- The `StopsRepeatingFramesDelayed` scenario, first phase: send a
clock-stamped frame at t = 0 (clock starts at 0, so `timestamp_us` is 0 and
the NTP timestamp is the NTP offset) and advance 2.5 s. -/
def c4Phase1 : AdapterState :=
  run cfgOn (initState 0)
    [Cmd.initCb, Cmd.setZeroHertz true, Cmd.onConstraints (some 0) (some 1),
     Cmd.onFrame 0 2208988800000, Cmd.advance 2500000]

/-- The `StopsRepeatingFramesDelayed` scenario, both phases: a fresh
clock-stamped frame at t = 2.5 s, then advance 1 s more. -/
def c4Full : AdapterState :=
  run cfgOn c4Phase1 [Cmd.onFrame 2500000 2208988802500, Cmd.advance 1000000]

/-- The `RecordsMinLtMaxConstraintIfSetOnFrame` scenario: zero-hertz enabled,
constraints `{min 4, max 5}`, one frame, queue pumped. -/
def c9LtRun : AdapterState :=
  run cfgOn (initState 1000)
    [Cmd.initCb, Cmd.setZeroHertz true, Cmd.onConstraints (some 4) (some 5),
     Cmd.onFrame 3 4, Cmd.advance 0]

/-- The `RecordsMinGtMaxConstraintIfSetOnFrame` scenario: zero-hertz enabled,
constraints `{min 5, max 4}`, one frame, queue pumped. -/
def c9GtRun : AdapterState :=
  run cfgOn (initState 1000)
    [Cmd.initCb, Cmd.setZeroHertz true, Cmd.onConstraints (some 5) (some 4),
     Cmd.onFrame 3 4, Cmd.advance 0]

/-- The zero-hertz prologue at the `RepeatsFramesDelayed` clock start with a
clock-stamped frame, followed by a single advance of `d` microseconds. -/
def c10Run (d : Nat) : AdapterState :=
  advanceUs d (run cfgOn (initState 47892223000) (zhSetupCmds 1 47892223000 2209036692223))

/-! Helper lemmas about the repeat-task loop. -/

theorem fireRepeats_none (fuel target : Nat) (s : AdapterState) (h : s.repeatDue = none) :
    fireRepeats fuel target s = { s with nowUs := target } := by
  cases fuel with
  | zero => rfl
  | succ fuel => simp only [fireRepeats, h]

theorem fireRepeats_stuck (fuel target due n : Nat) (s : AdapterState)
    (h : s.repeatDue = some (due, n)) (hgt : target < due) :
    fireRepeats fuel target s = { s with nowUs := target } := by
  cases fuel with
  | zero => rfl
  | succ fuel =>
    simp only [fireRepeats, h]
    rw [if_neg]
    exact fun hc => absurd hc.1 (Nat.not_le.mpr hgt)

theorem fireRepeats_fire (fuel target due n : Nat) (s : AdapterState)
    (h : s.repeatDue = some (due, n)) (hle : due ≤ target) (hP : 0 < periodState s) :
    fireRepeats (fuel + 1) target s
      = fireRepeats fuel target (fireOne due n { s with nowUs := due }) := by
  simp only [fireRepeats, h]
  rw [if_pos ⟨hle, hP⟩]

theorem fireOne_some (due n : Nat) (s : AdapterState) (f : Frame)
    (h : s.latestFrame = some f) :
    fireOne due n s
      = { s with
          deliveries :=
            { postTimeUs := due
              count := s.framesScheduled
              timestampUs := (rewriteTimestamps f.timestampUs f.ntpTimeMs n (periodState s)).1
              ntpTimeMs := (rewriteTimestamps f.timestampUs f.ntpTimeMs n (periodState s)).2 }
            :: s.deliveries
          repeatDue := some (due + periodState s, n + 1) } := by
  simp only [fireOne, h]

/-- The zero-hertz cadence loop in closed form: after the prologue and `k`
single-period advances the state is exactly `zhExpected`. -/
theorem zhRun_eq (startUs M : Nat) (t0 n0 : Int) (hP : 0 < 1000000 / M) :
    ∀ k, zhRun startUs M t0 n0 k = zhExpected startUs M t0 n0 k := by
  intro k
  induction k with
  | zero =>
    have h1 : zhRun startUs M t0 n0 0
        = fireRepeats 1 (startUs + 0)
            { nowUs := startUs, callbackSet := true, zeroHertz := true,
              cMin := some 0, cMax := some M, constraintsEverSet := true,
              pendingTelemetry := false,
              latestFrame := some { timestampUs := t0, ntpTimeMs := n0 },
              framesScheduled := 0, queue := [],
              repeatDue := some (startUs + 1000000 / M, 0),
              rateEvents := [startUs / 1000], deliveries := [],
              metrics := telemetrySamples true (some 0) (some M),
              everFrame := true, everActivated := true } := rfl
    rw [h1, fireRepeats_stuck 1 (startUs + 0) (startUs + 1000000 / M) 0 _ rfl
          (by simpa using hP)]
    simp [zhExpected]
  | succ k ih =>
    have hstep : zhRun startUs M t0 n0 (k + 1)
        = advanceUs (1000000 / M) (zhRun startUs M t0 n0 k) := by
      simp only [zhRun, Function.iterate_succ_apply']
    rw [hstep, ih]
    have h2 : advanceUs (1000000 / M) (zhExpected startUs M t0 n0 k)
        = fireRepeats (1000000 / M + 1) (startUs + k * (1000000 / M) + 1000000 / M)
            (zhExpected startUs M t0 n0 k) := rfl
    have hPE : 0 < periodState (zhExpected startUs M t0 n0 k) := hP
    have hle : startUs + (k + 1) * (1000000 / M)
        ≤ startUs + k * (1000000 / M) + 1000000 / M :=
      le_of_eq (by rw [Nat.succ_mul, Nat.add_assoc])
    rw [h2, fireRepeats_fire (1000000 / M) (startUs + k * (1000000 / M) + 1000000 / M)
          (startUs + (k + 1) * (1000000 / M)) k (zhExpected startUs M t0 n0 k) rfl hle hPE]
    rw [fireOne_some _ _ _ { timestampUs := t0, ntpTimeMs := n0 } rfl]
    rw [fireRepeats_stuck _ _ (startUs + (k + 1) * (1000000 / M) + 1000000 / M) (k + 1)
          _ rfl (by
            rw [Nat.succ_mul]
            exact Nat.add_lt_add_right (Nat.add_lt_add_left (Nat.lt_add_of_pos_right hP) startUs) _)]
    simp [zhExpected, periodState, List.range_succ, Nat.succ_mul, Nat.add_assoc]

/-- C1, counterexample: in the S2 scenario (zero-hertz, constraints
`{min 0, max 1}`, one clock-stamped frame at t = 0, 3 seconds advanced one
second at a time) the consumer has received 3 deliveries, not the 4 the claim
states: the first delivery is itself delayed by one repeat period, so no
delivery carries `T0 + 3e6`. -/
theorem C1_counterexample :
    ¬ (zhRun 47892223000 1 47892223000 2209036692223 3).deliveries.length = 4 := by
  decide

/-- C1 (amended): in zero-hertz mode with constraints `{min 0, max 1}`, after
a single OnFrame at t = 0 carrying nonzero timestamps and advancing simulated
time by 3 seconds, the consumer has received exactly `⌊T·M⌋ = 3` deliveries
(the first one itself delayed by one repeat period), at post times 1, 2 and 3
seconds after arrival, with `timestamp_us` values `T0, T0+1e6, T0+2e6` and
`ntp_time_ms` values `N0, N0+1000, N0+2000`. -/
theorem C1_repeat_cadence (t0 n0 : Int) (h1 : t0 ≠ 0) (h2 : n0 ≠ 0) :
    (zhRun 47892223000 1 t0 n0 3).deliveries.reverse.map
        (fun d => (d.postTimeUs, d.timestampUs, d.ntpTimeMs))
      = [(47893223000, t0, n0), (47894223000, t0 + 1000000, n0 + 1000),
         (47895223000, t0 + 2000000, n0 + 2000)] := by
  rw [zhRun_eq 47892223000 1 t0 n0 (by decide) 3]
  simp [zhExpected, rewriteTimestamps, h1, List.range_succ]

theorem C1_repeat_cadence_witness :
    (zhRun 47892223000 1 5 7 3).deliveries.reverse.map
        (fun d => (d.postTimeUs, d.timestampUs, d.ntpTimeMs))
      = [(47893223000, 5, 7), (47894223000, 5 + 1000000, 7 + 1000),
         (47895223000, 5 + 2000000, 7 + 2000)] :=
  C1_repeat_cadence 5 7 (by decide) (by decide)

/-- C2: in zero-hertz mode with `max_fps = M`, when the original frame's
`timestamp_us` and `ntp_time_ms` are both nonzero, the `n`-th delivery of that
frame (0-indexed, the original delivery followed by the repeats) carries
`timestamp_us = t0 + n * (1e6 / M)` and `ntp_time_ms = ntp0 + n * (1000 / M)`,
for every `n` for which a delivery has happened. -/
theorem C2_repeat_timestamps (M : Nat) (hM : 0 < 1000000 / M) (t0 n0 : Int)
    (h1 : t0 ≠ 0) (h2 : n0 ≠ 0) (startUs k n : Nat) (hn : n < k) :
    ((zhRun startUs M t0 n0 k).deliveries.reverse.map
        (fun d => (d.timestampUs, d.ntpTimeMs)))[n]?
      = some (t0 + (n : Int) * ((1000000 / M : Nat) : Int),
              n0 + (n : Int) * ((1000 / M : Nat) : Int)) := by
  have hdiv : 1000000 / M / 1000 = 1000 / M := by
    rw [Nat.div_div_eq_div_mul, Nat.mul_comm, ← Nat.div_div_eq_div_mul]
  rw [zhRun_eq startUs M t0 n0 hM k]
  simp [zhExpected, rewriteTimestamps, h1, hdiv, List.getElem?_map,
    List.getElem?_range, hn]

theorem C2_repeat_timestamps_witness :
    ((zhRun 0 1 5 7 2).deliveries.reverse.map
        (fun d => (d.timestampUs, d.ntpTimeMs)))[1]?
      = some (5 + ((1 : Nat) : Int) * ((1000000 / 1 : Nat) : Int),
              7 + ((1 : Nat) : Int) * ((1000 / 1 : Nat) : Int)) :=
  C2_repeat_timestamps 1 (by decide) 5 7 (by decide) (by decide) 0 2 1 (by decide)

/-- C3: in zero-hertz mode, when the original frame's `timestamp_us` and
`ntp_time_ms` are both zero (the unset sentinel), every delivery of that frame
(the original delayed delivery and all repeats) carries zero timestamps,
regardless of the clock value at the arrival or delivery instants (the start
clock and the number of elapsed periods are arbitrary here). -/
theorem C3_unset_timestamps (startUs M k : Nat) (hM : 0 < 1000000 / M) :
    (zhRun startUs M 0 0 k).deliveries.all
        (fun d => decide (d.timestampUs = 0) && decide (d.ntpTimeMs = 0)) = true := by
  rw [zhRun_eq startUs M 0 0 hM k]
  simp [zhExpected, rewriteTimestamps, List.all_eq_true]

theorem C3_unset_timestamps_witness :
    (zhRun 4711000 1 0 0 2).deliveries.all
        (fun d => decide (d.timestampUs = 0) && decide (d.ntpTimeMs = 0)) = true :=
  C3_unset_timestamps 4711000 1 2 (by decide)

/-- C4, counterexample: in the `StopsRepeatingFramesDelayed` scenario, after
one OnFrame at t = 0 and advancing 2.5 s, 2 deliveries have occurred (the
delayed original plus one repeat), not the 3 the claim states. -/
theorem C4_counterexample : ¬ c4Phase1.deliveries.length = 3 := by decide

/-- C4 (amended): in zero-hertz mode with `max_fps = 1`, after one OnFrame at
t = 0 and advancing 2.5 s, exactly 2 deliveries have occurred (the original
delivery, itself delayed one period, plus 1 repeat); a fresh OnFrame at
t = 2.5 s resets the repeat index to 0 and restarts the repeat schedule from
that arrival time, so advancing 1 more second produces exactly 1 additional
delivery, at t = 3.5 s, carrying `timestamp_us = 2.5e6`. -/
theorem C4_fresh_frame_restarts :
    c4Phase1.deliveries.length = 2
    ∧ c4Full.deliveries.length = 3
    ∧ c4Full.deliveries.head?
        = some { postTimeUs := 3500000, count := 0, timestampUs := 2500000,
                 ntpTimeMs := 2208988802500 }
    ∧ c4Full.repeatDue = some (4500000, 1) := by
  decide

/-- C10: in zero-hertz mode with a known `max_fps`, an inbound frame is never
delivered before one repeat period has elapsed since its arrival: pumping the
queue and advancing any duration `d` strictly below the period produces zero
consumer deliveries; and the delivery that does occur at the full period has a
`post_time` equal to the clock reading at delivery time (one period past the
arrival clock 47892223000), not the arrival time. -/
theorem C10_delayed_delivery (d : Nat) (hd : d < 1000000) :
    (c10Run d).deliveries = []
    ∧ (c10Run 1000000).deliveries.map (fun x => x.postTimeUs) = [(c10Run 1000000).nowUs]
    ∧ (c10Run 1000000).nowUs = 47892223000 + 1000000 := by
  refine ⟨?_, by decide, by decide⟩
  have h1 : c10Run d = fireRepeats (d + 1) (47892223000 + d)
      { nowUs := 47892223000, callbackSet := true, zeroHertz := true,
        cMin := some 0, cMax := some 1, constraintsEverSet := true,
        pendingTelemetry := false,
        latestFrame := some { timestampUs := 47892223000, ntpTimeMs := 2209036692223 },
        framesScheduled := 0, queue := [],
        repeatDue := some (47893223000, 0),
        rateEvents := [47892223], deliveries := [],
        metrics := [(MetricKey.keyExists, 1), (MetricKey.minExists, 1),
                    (MetricKey.minValue, 0), (MetricKey.maxExists, 1),
                    (MetricKey.maxValue, 1), (MetricKey.minLtMaxMin, 0),
                    (MetricKey.minLtMaxMax, 1), (MetricKey.sixtyMinPlusMaxMinusOne, 0)],
        everFrame := true, everActivated := true } := rfl
  rw [h1, fireRepeats_stuck (d + 1) (47892223000 + d) 47893223000 0 _ rfl (by omega)]

theorem C10_delayed_delivery_witness :
    (c10Run 0).deliveries = []
    ∧ (c10Run 1000000).deliveries.map (fun x => x.postTimeUs) = [(c10Run 1000000).nowUs]
    ∧ (c10Run 1000000).nowUs = 47892223000 + 1000000 :=
  C10_delayed_delivery 0 (by decide)

/-- C6: whenever the adapter is in zero-hertz mode and a `max_fps` constraint
is known, `GetInputFrameRateFps()` returns that value (an integral `max_fps`,
so its ceiling is itself) at every observation, for every command history --
independent of the cadence at which the producer supplied frames, including
histories with no frames at all. -/
theorem C6_zero_hertz_rate (startUs M : Nat) (cmds : List Cmd)
    (h1 : (run cfgOn (initState startUs) cmds).zeroHertz = true)
    (h2 : (run cfgOn (initState startUs) cmds).cMax = some M) :
    getInputFrameRateFps (run cfgOn (initState startUs) cmds) = M := by
  unfold getInputFrameRateFps
  rw [h1, h2]
  simp

theorem C6_zero_hertz_rate_witness :
    getInputFrameRateFps (run cfgOn (initState 0)
      [Cmd.initCb, Cmd.setZeroHertz true, Cmd.onConstraints (some 0) (some 1),
       Cmd.advance 10000, Cmd.updateRate]) = 1 :=
  C6_zero_hertz_rate 0 1
    [Cmd.initCb, Cmd.setZeroHertz true, Cmd.onConstraints (some 0) (some 1),
     Cmd.advance 10000, Cmd.updateRate] (by decide) (by decide)

/-- C7, counterexample: in passthrough mode `UpdateFrameRate()` does not leave
the rate window unchanged: a single call on the freshly initialized adapter
records an event (this is what the unit test
`FrameRateFollowsRateStatisticsByDefault` pins, where the reported rate
follows an oracle driven purely by `UpdateFrameRate` with no `OnFrame` call
ever made). -/
theorem C7_counterexample :
    ¬ (run cfgOn (initState 10000000) [Cmd.initCb, Cmd.updateRate]).rateEvents
        = (run cfgOn (initState 10000000) [Cmd.initCb]).rateEvents := by
  decide

/-- C7 (amended): `UpdateFrameRate()` is not a no-op on the rate window: in
passthrough mode each call records one event at the current clock
milliseconds, and `GetInputFrameRateFps()` in passthrough reports the
rate-window estimate over the events so recorded. -/
theorem C7_update_frame_rate (s : AdapterState) (h : s.zeroHertz = false) :
    (step cfgOn s Cmd.updateRate).rateEvents = s.nowUs / 1000 :: s.rateEvents
    ∧ getInputFrameRateFps s = windowRate s.rateEvents (s.nowUs / 1000) := by
  refine ⟨rfl, ?_⟩
  unfold getInputFrameRateFps
  rw [h]
  simp

theorem C7_update_frame_rate_witness :
    (step cfgOn (initState 0) Cmd.updateRate).rateEvents
        = (initState 0).nowUs / 1000 :: (initState 0).rateEvents
    ∧ getInputFrameRateFps (initState 0)
        = windowRate (initState 0).rateEvents ((initState 0).nowUs / 1000) :=
  C7_update_frame_rate (initState 0) (by decide)

/-- C9: on the first OnFrame after zero-hertz activation with both constraint
bounds present the telemetry follows the section 4.5 table exactly: with
`min 4 < max 5` the `MinLessThanMax` keys record 4 and 5 and the
`60*Min + Max - 1` scalar records 244; with `min 5 > max 4` the
`MinLessThanMax` keys are not emitted but `Min.Value`, `Max.Value` and the
scalar (303) still are -- the `min > max` configuration is accepted and
recorded rather than rejected. -/
theorem C9_constraint_telemetry :
    c9LtRun.metrics
      = [(MetricKey.keyExists, 1), (MetricKey.minExists, 1), (MetricKey.minValue, 4),
         (MetricKey.maxExists, 1), (MetricKey.maxValue, 5), (MetricKey.minLtMaxMin, 4),
         (MetricKey.minLtMaxMax, 5), (MetricKey.sixtyMinPlusMaxMinusOne, 244)]
    ∧ c9GtRun.metrics
      = [(MetricKey.keyExists, 1), (MetricKey.minExists, 1), (MetricKey.minValue, 5),
         (MetricKey.maxExists, 1), (MetricKey.maxValue, 4),
         (MetricKey.sixtyMinPlusMaxMinusOne, 303)] := by
  decide

/-! Field-preservation lemmas for the outstanding-counter invariant. -/

theorem emitIfDue_fields (s : AdapterState) :
    (emitIfDue s).framesScheduled = s.framesScheduled
    ∧ (emitIfDue s).queue = s.queue
    ∧ (emitIfDue s).callbackSet = s.callbackSet
    ∧ (emitIfDue s).zeroHertz = s.zeroHertz
    ∧ (emitIfDue s).cMax = s.cMax
    ∧ (emitIfDue s).nowUs = s.nowUs
    ∧ (emitIfDue s).repeatDue = s.repeatDue
    ∧ (emitIfDue s).deliveries = s.deliveries := by
  unfold emitIfDue
  split <;> simp

theorem fireOne_fields (due n : Nat) (s : AdapterState) :
    (fireOne due n s).framesScheduled = s.framesScheduled
    ∧ (fireOne due n s).queue = s.queue := by
  unfold fireOne
  rcases s.latestFrame with _ | f <;> simp

theorem fireRepeats_fields (fuel : Nat) : ∀ (target : Nat) (s : AdapterState),
    (fireRepeats fuel target s).framesScheduled = s.framesScheduled
    ∧ (fireRepeats fuel target s).queue = s.queue := by
  induction fuel with
  | zero => intro target s; exact ⟨rfl, rfl⟩
  | succ fuel ih =>
    intro target s
    rcases hr : s.repeatDue with _ | ⟨due, n⟩
    · simp [fireRepeats, hr]
    · simp only [fireRepeats, hr]
      split
      · have h1 := ih target (fireOne due n { s with nowUs := due })
        have h2 := fireOne_fields due n { s with nowUs := due }
        exact ⟨h1.1.trans h2.1, h1.2.trans h2.2⟩
      · simp

theorem processJob_fields (f : Frame) (s : AdapterState) :
    (processJob f s).framesScheduled = s.framesScheduled - 1
    ∧ (processJob f s).queue = s.queue := by
  unfold processJob pjCore
  split
  · exact ⟨rfl, rfl⟩
  · unfold pjDeliver
    have he := emitIfDue_fields
      { s with rateEvents := s.nowUs / 1000 :: s.rateEvents, everFrame := true }
    split <;> exact ⟨by simp [he.1], by simp [he.2.1]⟩

theorem runQueue_fields (q : List Frame) : ∀ s : AdapterState,
    s.framesScheduled = q.length + s.queue.length →
    (runQueue q s).framesScheduled = (runQueue q s).queue.length
    ∧ (runQueue q s).queue = s.queue := by
  induction q with
  | nil => intro s h; simpa [runQueue] using h
  | cons f rest ih =>
    intro s h
    simp only [runQueue]
    have hp := processJob_fields f s
    have hih := ih (processJob f s) (by rw [hp.1, hp.2, h]; simp [List.length_cons])
    exact ⟨hih.1, hih.2.trans hp.2⟩

/-- The outstanding counter always equals the number of posted but unprocessed
frame jobs. -/
theorem step_frames_queue (cfg : Config) (s : AdapterState) (c : Cmd)
    (h : s.framesScheduled = s.queue.length) :
    (step cfg s c).framesScheduled = (step cfg s c).queue.length := by
  cases c with
  | initCb => simpa using h
  | onFrame tsUs ntpMs => simp [step, h]
  | setZeroHertz b =>
    simp only [step]
    split
    · exact h
    · split
      · split <;> simpa using h
      · simpa using h
  | onConstraints mn mx =>
    simp only [step]
    split <;> simpa using h
  | updateRate => simpa using h
  | advance d =>
    simp only [step, advanceUs]
    have h1 := runQueue_fields s.queue { s with queue := [] } (by simpa using h)
    have h2 := fireRepeats_fields (d + 1)
      ((runQueue s.queue { s with queue := [] }).nowUs + d)
      (runQueue s.queue { s with queue := [] })
    rw [h2.1, h2.2, h1.1]

theorem run_frames_queue (cfg : Config) (cmds : List Cmd) : ∀ s : AdapterState,
    s.framesScheduled = s.queue.length →
    (run cfg s cmds).framesScheduled = (run cfg s cmds).queue.length := by
  induction cmds with
  | nil => intro s h; simpa [run] using h
  | cons c rest ih =>
    intro s h
    simp only [run, List.foldl_cons]
    exact ih (step cfg s c) (step_frames_queue cfg s c h)

/-! The passthrough invariant: with zero-hertz mode never enabled, the repeat
task is never armed, and every delivery reports a count of at least one. -/

theorem run_append (cfg : Config) (s : AdapterState) (l1 l2 : List Cmd) :
    run cfg s (l1 ++ l2) = run cfg (run cfg s l1) l2 := by
  simp [run, List.foldl_append]

theorem runQueue_passthrough (q : List Frame) : ∀ s : AdapterState,
    s.zeroHertz = false → s.repeatDue = none →
    s.framesScheduled = q.length + s.queue.length →
    (∀ d ∈ s.deliveries, 1 ≤ d.count) →
    (runQueue q s).zeroHertz = false
    ∧ (runQueue q s).repeatDue = none
    ∧ ∀ d ∈ (runQueue q s).deliveries, 1 ≤ d.count := by
  induction q with
  | nil => intro s hz hr _ hd; exact ⟨hz, hr, hd⟩
  | cons f rest ih =>
    intro s hz hr hf hd
    simp only [runQueue]
    by_cases hcb : s.callbackSet = false
    · exact ih (processJob f s)
        (by simp [processJob, pjCore, hcb, hz])
        (by simp [processJob, pjCore, hcb, hr])
        (by simp [processJob, pjCore, hcb, hf, List.length_cons])
        (by simpa [processJob, pjCore, hcb] using hd)
    · refine ih (processJob f s)
        (by simp [processJob, pjCore, pjDeliver, emitIfDue, hcb, hz])
        (by simp [processJob, pjCore, pjDeliver, emitIfDue, hcb, hz, hr])
        (by simp [processJob, pjCore, pjDeliver, emitIfDue, hcb, hz, hf, List.length_cons])
        ?_
      intro d hdmem
      simp only [processJob, pjCore, pjDeliver, emitIfDue, hcb, hz] at hdmem
      simp at hdmem
      rcases hdmem with h1 | h1
      · subst h1; simp only [hf, List.length_cons]; omega
      · exact hd d h1

theorem step_passthrough (cfg : Config) (s : AdapterState) (c : Cmd)
    (hc : (match c with | Cmd.setZeroHertz true => false | _ => true) = true)
    (hz : s.zeroHertz = false) (hr : s.repeatDue = none)
    (hf : s.framesScheduled = s.queue.length)
    (hd : ∀ d ∈ s.deliveries, 1 ≤ d.count) :
    (step cfg s c).zeroHertz = false
    ∧ (step cfg s c).repeatDue = none
    ∧ ∀ d ∈ (step cfg s c).deliveries, 1 ≤ d.count := by
  cases c with
  | initCb => exact ⟨hz, hr, hd⟩
  | onFrame tsUs ntpMs => exact ⟨hz, hr, hd⟩
  | setZeroHertz b =>
    cases b with
    | false =>
      simp only [step]
      split
      · exact ⟨hz, hr, hd⟩
      · exact ⟨rfl, rfl, hd⟩
    | true => simp at hc
  | onConstraints mn mx =>
    simp only [step, hr]
    split
    · rename_i hcond
      simp at hcond
    · exact ⟨hz, rfl, hd⟩
  | updateRate => exact ⟨hz, hr, hd⟩
  | advance d =>
    simp only [step, advanceUs]
    have h1 := runQueue_passthrough s.queue { s with queue := [] }
      (by simpa using hz) (by simpa using hr) (by simpa using hf) (by simpa using hd)
    have h2 := fireRepeats_none (d + 1)
      ((runQueue s.queue { s with queue := [] }).nowUs + d)
      (runQueue s.queue { s with queue := [] }) h1.2.1
    rw [h2]
    exact ⟨h1.1, h1.2.1, h1.2.2⟩

theorem run_passthrough (cfg : Config) (cmds : List Cmd) : ∀ s : AdapterState,
    noZeroHertz cmds = true →
    s.zeroHertz = false → s.repeatDue = none →
    s.framesScheduled = s.queue.length →
    (∀ d ∈ s.deliveries, 1 ≤ d.count) →
    (run cfg s cmds).zeroHertz = false
    ∧ (run cfg s cmds).repeatDue = none
    ∧ ∀ d ∈ (run cfg s cmds).deliveries, 1 ≤ d.count := by
  induction cmds with
  | nil => intro s _ hz hr _ hd; exact ⟨hz, hr, hd⟩
  | cons c rest ih =>
    intro s hcmds hz hr hf hd
    simp only [noZeroHertz, List.all_cons, Bool.and_eq_true] at hcmds
    simp only [run, List.foldl_cons]
    have hstep := step_passthrough cfg s c hcmds.1 hz hr hf hd
    exact ih (step cfg s c) hcmds.2 hstep.1 hstep.2.1
      (step_frames_queue cfg s c hf) hstep.2.2

/-- Delivered counts of a drained passthrough batch: processing `q` posted
jobs with the counter at `q.length` reports the counts `q.length` down to 1,
recorded newest-first as `[1, ..., q.length]`. -/
theorem runQueue_counts (q : List Frame) : ∀ s : AdapterState,
    s.callbackSet = true → s.zeroHertz = false →
    s.framesScheduled = q.length → s.queue = [] →
    (runQueue q s).deliveries.map (fun d => d.count)
      = List.range' 1 q.length ++ s.deliveries.map (fun d => d.count) := by
  induction q with
  | nil => intro s _ _ _ _; simp [runQueue]
  | cons f rest ih =>
    intro s hcb hz hf hq
    simp only [runQueue]
    rw [ih (processJob f s)
        (by simp [processJob, pjCore, pjDeliver, emitIfDue, hcb, hz])
        (by simp [processJob, pjCore, pjDeliver, emitIfDue, hcb, hz])
        (by simp [processJob, pjCore, pjDeliver, emitIfDue, hcb, hz, hf, List.length_cons])
        (by simp [processJob, pjCore, pjDeliver, emitIfDue, hcb, hz, hq])]
    have hdel : (processJob f s).deliveries.map (fun d => d.count)
        = (rest.length + 1) :: s.deliveries.map (fun d => d.count) := by
      simp [processJob, pjCore, pjDeliver, emitIfDue, hcb, hz, hf, List.length_cons]
    rw [hdel, List.length_cons, List.range'_concat]
    simp [Nat.add_comm]

theorem run_replicate_onFrame (cfg : Config) (m : Nat) : ∀ s : AdapterState,
    run cfg s (List.replicate m (Cmd.onFrame 5 6))
      = { s with framesScheduled := s.framesScheduled + m,
                 queue := s.queue
                   ++ List.replicate m { timestampUs := 5, ntpTimeMs := 6 } } := by
  induction m with
  | zero => intro s; simp [run]
  | succ m ih =>
    intro s
    simp only [List.replicate_succ, run, List.foldl_cons]
    have hs : step cfg s (Cmd.onFrame 5 6)
        = { s with framesScheduled := s.framesScheduled + 1,
                   queue := s.queue ++ [{ timestampUs := 5, ntpTimeMs := 6 }] } := rfl
    rw [hs]
    have := ih { s with framesScheduled := s.framesScheduled + 1,
                        queue := s.queue ++ [{ timestampUs := 5, ntpTimeMs := 6 }] }
    simp only [run] at this
    rw [this]
    simp [List.append_assoc, Nat.add_assoc, List.replicate_succ, Nat.add_comm,
      Nat.add_left_comm]

/-- C5: passthrough outstanding counts.  First: over every command history the
outstanding counter equals the number of posted but not yet processed frames,
so it is 0 once the queue drains.  Second: in histories that never enable
zero-hertz mode, every delivery reports a count of at least 1 (the count
includes the current delivery).  Third: a batch of `m` back-to-back `OnFrame`
calls followed by one queue pump delivers counts `m, m-1, ..., 1` (recorded
newest-first as `[1, ..., m]`); in particular two synchronous `OnFrame` calls
yield consumer counts 2 then 1. -/
theorem C5_outstanding_count :
    (∀ (cfg : Config) (startUs : Nat) (cmds : List Cmd),
      (run cfg (initState startUs) cmds).framesScheduled
        = (run cfg (initState startUs) cmds).queue.length)
    ∧ (∀ (cfg : Config) (startUs : Nat) (cmds : List Cmd), noZeroHertz cmds = true →
      (run cfg (initState startUs) cmds).deliveries.all
        (fun d => decide (1 ≤ d.count)) = true)
    ∧ (∀ m : Nat, (run cfgOn (initState 1000) (batchCmds m)).deliveries.map
        (fun d => d.count) = List.range' 1 m) := by
  refine ⟨fun cfg startUs cmds => run_frames_queue cfg cmds (initState startUs) rfl,
    fun cfg startUs cmds hcmds => ?_, fun m => ?_⟩
  · have h := run_passthrough cfg cmds (initState startUs) hcmds rfl rfl rfl
      (by intro d hd; simp [initState] at hd)
    simpa [List.all_eq_true] using h.2.2
  · rw [show batchCmds m
        = (Cmd.initCb :: List.replicate m (Cmd.onFrame 5 6)) ++ [Cmd.advance 0] by
      simp [batchCmds]]
    rw [run_append]
    have h0 : run cfgOn (initState 1000) (Cmd.initCb :: List.replicate m (Cmd.onFrame 5 6))
        = { nowUs := 1000, callbackSet := true, zeroHertz := false, cMin := none,
            cMax := none, constraintsEverSet := false, pendingTelemetry := false,
            latestFrame := none, framesScheduled := m,
            queue := List.replicate m { timestampUs := 5, ntpTimeMs := 6 },
            repeatDue := none, rateEvents := [], deliveries := [], metrics := [],
            everFrame := false, everActivated := false } := by
      rw [show (Cmd.initCb :: List.replicate m (Cmd.onFrame 5 6))
          = [Cmd.initCb] ++ List.replicate m (Cmd.onFrame 5 6) from rfl, run_append]
      rw [show run cfgOn (initState 1000) [Cmd.initCb]
          = { nowUs := 1000, callbackSet := true, zeroHertz := false, cMin := none,
              cMax := none, constraintsEverSet := false, pendingTelemetry := false,
              latestFrame := none, framesScheduled := 0, queue := [],
              repeatDue := none, rateEvents := [], deliveries := [], metrics := [],
              everFrame := false, everActivated := false } from rfl]
      rw [run_replicate_onFrame]
      simp
    rw [h0]
    rw [show run cfgOn
          { nowUs := 1000, callbackSet := true, zeroHertz := false, cMin := none,
            cMax := none, constraintsEverSet := false, pendingTelemetry := false,
            latestFrame := none, framesScheduled := m,
            queue := List.replicate m { timestampUs := 5, ntpTimeMs := 6 },
            repeatDue := none, rateEvents := [], deliveries := [], metrics := [],
            everFrame := false, everActivated := false } [Cmd.advance 0]
        = fireRepeats 1
            ((runQueue (List.replicate m { timestampUs := 5, ntpTimeMs := 6 })
              { nowUs := 1000, callbackSet := true, zeroHertz := false, cMin := none,
                cMax := none, constraintsEverSet := false, pendingTelemetry := false,
                latestFrame := none, framesScheduled := m, queue := [],
                repeatDue := none, rateEvents := [], deliveries := [], metrics := [],
                everFrame := false, everActivated := false }).nowUs + 0)
            (runQueue (List.replicate m { timestampUs := 5, ntpTimeMs := 6 })
              { nowUs := 1000, callbackSet := true, zeroHertz := false, cMin := none,
                cMax := none, constraintsEverSet := false, pendingTelemetry := false,
                latestFrame := none, framesScheduled := m, queue := [],
                repeatDue := none, rateEvents := [], deliveries := [], metrics := [],
                everFrame := false, everActivated := false }) from rfl]
    have hrd := runQueue_passthrough
      (List.replicate m { timestampUs := 5, ntpTimeMs := 6 })
      { nowUs := 1000, callbackSet := true, zeroHertz := false, cMin := none,
        cMax := none, constraintsEverSet := false, pendingTelemetry := false,
        latestFrame := none, framesScheduled := m, queue := [],
        repeatDue := none, rateEvents := [], deliveries := [], metrics := [],
        everFrame := false, everActivated := false } rfl rfl (by simp) (by simp)
    rw [fireRepeats_none _ _ _ hrd.2.1]
    have hc := runQueue_counts
      (List.replicate m { timestampUs := 5, ntpTimeMs := 6 })
      { nowUs := 1000, callbackSet := true, zeroHertz := false, cMin := none,
        cMax := none, constraintsEverSet := false, pendingTelemetry := false,
        latestFrame := none, framesScheduled := m, queue := [],
        repeatDue := none, rateEvents := [], deliveries := [], metrics := [],
        everFrame := false, everActivated := false } rfl rfl (by simp) rfl
    simpa using hc

theorem C5_outstanding_count_witness :
    (run cfgOn (initState 1000) (batchCmds 2)).deliveries.map (fun d => d.count)
      = List.range' 1 2
    ∧ (run cfgOn (initState 1000) (batchCmds 2)).deliveries.all
        (fun d => decide (1 ≤ d.count)) = true :=
  ⟨C5_outstanding_count.2.2 2,
   C5_outstanding_count.2.1 cfgOn 1000 (batchCmds 2) (by decide)⟩

/-! The telemetry-gate invariant machinery. -/

theorem c8Inv_of_eq (s t : AdapterState) (hm : t.metrics = s.metrics)
    (h1 : t.callbackSet = s.callbackSet) (h2 : t.everFrame = s.everFrame)
    (h3 : t.everActivated = s.everActivated) (h4 : t.zeroHertz = s.zeroHertz)
    (h5 : t.constraintsEverSet = s.constraintsEverSet) (h : c8Inv s) : c8Inv t := by
  unfold c8Inv at h ⊢
  rw [hm, h1, h2, h3, h4, h5]
  exact h

theorem fireOne_flags (due n : Nat) (s : AdapterState) :
    (fireOne due n s).metrics = s.metrics
    ∧ (fireOne due n s).callbackSet = s.callbackSet
    ∧ (fireOne due n s).everFrame = s.everFrame
    ∧ (fireOne due n s).everActivated = s.everActivated
    ∧ (fireOne due n s).zeroHertz = s.zeroHertz
    ∧ (fireOne due n s).constraintsEverSet = s.constraintsEverSet := by
  unfold fireOne
  rcases s.latestFrame with _ | f <;> simp

theorem fireRepeats_c8 (fuel : Nat) : ∀ (target : Nat) (s : AdapterState),
    c8Inv s → c8Inv (fireRepeats fuel target s) := by
  induction fuel with
  | zero => intro target s h; exact c8Inv_of_eq s _ rfl rfl rfl rfl rfl rfl h
  | succ fuel ih =>
    intro target s h
    rcases hr : s.repeatDue with _ | ⟨due, n⟩
    · simp only [fireRepeats, hr]
      exact c8Inv_of_eq s _ rfl rfl rfl rfl rfl rfl h
    · simp only [fireRepeats, hr]
      split
      · refine ih target (fireOne due n { s with nowUs := due }) ?_
        have hf := fireOne_flags due n { s with nowUs := due }
        exact c8Inv_of_eq s _ hf.1 hf.2.1 hf.2.2.1 hf.2.2.2.1 hf.2.2.2.2.1
          hf.2.2.2.2.2 h
      · exact c8Inv_of_eq s _ rfl rfl rfl rfl rfl rfl h

theorem pjDeliver_c8 (f : Frame) (s : AdapterState) (h : c8Inv s) :
    c8Inv (pjDeliver f s) := by
  unfold pjDeliver
  split
  · exact c8Inv_of_eq s _ rfl rfl rfl rfl rfl rfl h
  · exact c8Inv_of_eq s _ rfl rfl rfl rfl rfl rfl h

theorem emitIfDue_c8 (s : AdapterState) (hcb : s.callbackSet = true)
    (heF : s.everFrame = true) (h : c8Inv s) : c8Inv (emitIfDue s) := by
  unfold emitIfDue
  split
  · rename_i hcond
    simp only [Bool.and_eq_true] at hcond
    refine ⟨fun _ => ⟨hcb, heF, h.2.1 hcond.1⟩, h.2.1, ?_⟩
    intro hes m hm
    simp only [List.mem_append] at hm
    rcases hm with hm | hm
    · exact h.2.2 hes m hm
    · rw [hes] at hm
      simpa [telemetrySamples] using hm
  · exact h

theorem processJob_c8 (f : Frame) (s : AdapterState) (h : c8Inv s) :
    c8Inv (processJob f s) := by
  have hs' : c8Inv { s with
      rateEvents := s.nowUs / 1000 :: s.rateEvents, everFrame := true } :=
    ⟨fun hm => ⟨(h.1 hm).1, rfl, (h.1 hm).2.2⟩, h.2.1, h.2.2⟩
  unfold processJob pjCore
  split
  · exact ⟨fun hm => hs'.1 hm, hs'.2.1, hs'.2.2⟩
  · rename_i hcb
    have hcb' : ({ s with
        rateEvents := s.nowUs / 1000 :: s.rateEvents, everFrame := true }
          : AdapterState).callbackSet = true := by
      simpa using hcb
    exact pjDeliver_c8 f _ (emitIfDue_c8 _ hcb' rfl hs')

theorem runQueue_c8 (q : List Frame) : ∀ s : AdapterState,
    c8Inv s → c8Inv (runQueue q s) := by
  induction q with
  | nil => intro s h; exact h
  | cons f rest ih =>
    intro s h
    simp only [runQueue]
    exact ih (processJob f s) (processJob_c8 f s h)

theorem step_c8 (cfg : Config) (s : AdapterState) (c : Cmd) (h : c8Inv s) :
    c8Inv (step cfg s c) := by
  cases c with
  | initCb => exact ⟨fun hm => ⟨rfl, (h.1 hm).2.1, (h.1 hm).2.2⟩, h.2.1, h.2.2⟩
  | onFrame tsUs ntpMs => exact ⟨h.1, h.2.1, h.2.2⟩
  | setZeroHertz b =>
    simp only [step]
    split
    · exact h
    · split
      · split
        · exact ⟨fun hm => ⟨(h.1 hm).1, (h.1 hm).2.1, rfl⟩, fun _ => rfl, h.2.2⟩
        · exact ⟨fun hm => ⟨(h.1 hm).1, (h.1 hm).2.1, rfl⟩, fun _ => rfl, h.2.2⟩
      · exact ⟨fun hm => h.1 hm, fun hz => Bool.noConfusion hz, h.2.2⟩
  | onConstraints mn mx =>
    simp only [step]
    split
    · exact ⟨fun hm => h.1 hm, h.2.1, fun hes => Bool.noConfusion hes⟩
    · exact ⟨fun hm => h.1 hm, h.2.1, fun hes => Bool.noConfusion hes⟩
  | updateRate => exact ⟨h.1, h.2.1, h.2.2⟩
  | advance d =>
    simp only [step, advanceUs]
    refine fireRepeats_c8 (d + 1) _ _ (runQueue_c8 s.queue _ ?_)
    exact ⟨fun hm => h.1 hm, h.2.1, h.2.2⟩

theorem run_c8 (cfg : Config) (cmds : List Cmd) : ∀ s : AdapterState,
    c8Inv s → c8Inv (run cfg s cmds) := by
  induction cmds with
  | nil => intro s h; exact h
  | cons c rest ih =>
    intro s h
    simp only [run, List.foldl_cons]
    exact ih (step cfg s c) (step_c8 cfg s c h)

/-- C8: for every configuration and command history, no screenshare
frame-rate-constraint metric sample is ever emitted unless the consumer
callback was initialized, at least one frame job ran, and zero-hertz mode was
activated; when `OnConstraintsChanged` was never called, only `Exists` samples
of value 0 (false) are ever emitted; and in the concrete scenario where those
gate conditions hold with no `OnConstraintsChanged`, exactly one sample is
emitted: `Exists` with value false. -/
theorem C8_telemetry_gate :
    (∀ (cfg : Config) (startUs : Nat) (cmds : List Cmd),
      (run cfg (initState startUs) cmds).metrics ≠ [] →
        (run cfg (initState startUs) cmds).callbackSet = true
        ∧ (run cfg (initState startUs) cmds).everFrame = true
        ∧ (run cfg (initState startUs) cmds).everActivated = true)
    ∧ (∀ (cfg : Config) (startUs : Nat) (cmds : List Cmd),
      (run cfg (initState startUs) cmds).constraintsEverSet = false →
        (run cfg (initState startUs) cmds).metrics.all
          (fun m => decide (m = (MetricKey.keyExists, (0 : Int)))) = true)
    ∧ (run cfgOn (initState 1000)
        [Cmd.initCb, Cmd.setZeroHertz true, Cmd.onFrame 7 9, Cmd.advance 0]).metrics
      = [(MetricKey.keyExists, 0)] := by
  have hinit : ∀ startUs : Nat, c8Inv (initState startUs) := by
    intro startUs
    refine ⟨fun hm => absurd rfl hm, fun hz => Bool.noConfusion hz, ?_⟩
    intro _ m hm
    simp [initState] at hm
  refine ⟨fun cfg startUs cmds hm => (run_c8 cfg cmds _ (hinit startUs)).1 hm,
    fun cfg startUs cmds hes => ?_, by decide⟩
  have h := (run_c8 cfg cmds _ (hinit startUs)).2.2 hes
  simp only [List.all_eq_true, decide_eq_true_eq]
  exact h

theorem C8_telemetry_gate_witness :
    ((run cfgOn (initState 1000)
        [Cmd.initCb, Cmd.setZeroHertz true, Cmd.onFrame 7 9, Cmd.advance 0]).callbackSet = true
      ∧ (run cfgOn (initState 1000)
          [Cmd.initCb, Cmd.setZeroHertz true, Cmd.onFrame 7 9, Cmd.advance 0]).everFrame = true
      ∧ (run cfgOn (initState 1000)
          [Cmd.initCb, Cmd.setZeroHertz true, Cmd.onFrame 7 9, Cmd.advance 0]).everActivated = true)
    ∧ (run cfgOn (initState 1000)
        [Cmd.initCb, Cmd.setZeroHertz true, Cmd.onFrame 7 9, Cmd.advance 0]).metrics.all
        (fun m => decide (m = (MetricKey.keyExists, (0 : Int)))) = true :=
  ⟨C8_telemetry_gate.1 cfgOn 1000
      [Cmd.initCb, Cmd.setZeroHertz true, Cmd.onFrame 7 9, Cmd.advance 0] (by decide),
   C8_telemetry_gate.2.1 cfgOn 1000
      [Cmd.initCb, Cmd.setZeroHertz true, Cmd.onFrame 7 9, Cmd.advance 0] (by decide)⟩

end FrameCadence
